import Mathlib

/-!
Verification development for the Synapse focus-session manager.

The repository ships a React/Tauri presentation layer (under `ui/src`) on top
of a Rust core (`main-logic/`, not among the provided sources).  Frontend
handlers are embedded directly from the JavaScript/TypeScript sources; the
core rule engine and monitoring loop, whose sources are not available, are
modelled from the specification and marked as such in their doc comments.
-/

namespace Synapse

/-! ## Rule engine (Rule Store and classification) -/

/-- The rule store: whitelist, blacklist, and per-identifier snooze expiries.
Snoozes are kept as an association list `(identifier, expiry)`; an identifier
may occur several times, the engine treats it as snoozed when any entry is
still active. -/
structure AppRuleSet where
  whitelist : List String
  blacklist : List String
  snoozes : List (String × Nat)
deriving Repr, DecidableEq

/-- Result of classifying a process identifier. -/
inductive Classification where
  | Work
  | Distraction
  | Neutral
deriving Repr, DecidableEq

/-- Modelled from the spec: `id` has an active snooze when some recorded
expiry satisfies `expiry > now` (Rule Engine, `main-logic/` is not among the
provided sources). -/
def hasActiveSnooze (rules : AppRuleSet) (id : String) (now : Nat) : Bool :=
  rules.snoozes.any fun p => p.1 == id && decide (now < p.2)

/-- Modelled from the spec: `classify(id, rules, now)` with decision order
(1) active snooze → Neutral; (2) blacklist → Distraction; (3) whitelist →
Work; (4) otherwise Neutral (Rule Engine, `main-logic/` is not among the
provided sources). -/
def classify (id : String) (rules : AppRuleSet) (now : Nat) : Classification :=
  if hasActiveSnooze rules id now then .Neutral
  else if rules.blacklist.contains id then .Distraction
  else if rules.whitelist.contains id then .Work
  else .Neutral

/-- Modelled from the spec: `snooze(id, duration)` sets or extends the snooze
expiry for `id`; recording an additional entry `(id, now + duration)` extends
the effective expiry because `hasActiveSnooze` scans all entries
(Rule Engine, `main-logic/` is not among the provided sources). -/
def snooze (rules : AppRuleSet) (id : String) (durationSecs : Nat) (now : Nat) :
    AppRuleSet :=
  { rules with snoozes := (id, now + durationSecs) :: rules.snoozes }

/-- Proposition-level reading of an active snooze, used to state the
classification claim independently of the boolean implementation. -/
def ActiveSnooze (rules : AppRuleSet) (id : String) (now : Nat) : Prop :=
  ∃ p, p ∈ rules.snoozes ∧ p.1 = id ∧ now < p.2

theorem hasActiveSnooze_iff (rules : AppRuleSet) (id : String) (now : Nat) :
    hasActiveSnooze rules id now = true ↔ ActiveSnooze rules id now := by
  simp [hasActiveSnooze, ActiveSnooze, List.any_eq_true]

theorem contains_iff_mem (l : List String) (id : String) :
    l.contains id = true ↔ id ∈ l := by
  simp [List.contains]

/-- Claim C1: for every process identifier, rule set and time, `classify`
follows the decision order: active snooze gives Neutral; otherwise blacklist
membership gives Distraction; otherwise whitelist membership gives Work;
otherwise Neutral.  Stated as a full characterisation of each outcome. -/
theorem classify_decision_order (id : String) (rules : AppRuleSet) (now : Nat) :
    (classify id rules now = .Distraction ↔
      ¬ ActiveSnooze rules id now ∧ id ∈ rules.blacklist) ∧
    (classify id rules now = .Work ↔
      ¬ ActiveSnooze rules id now ∧ id ∉ rules.blacklist ∧ id ∈ rules.whitelist) ∧
    (classify id rules now = .Neutral ↔
      ActiveSnooze rules id now ∨ (id ∉ rules.blacklist ∧ id ∉ rules.whitelist)) := by
  have hs := hasActiveSnooze_iff rules id now
  have hb := contains_iff_mem rules.blacklist id
  have hw := contains_iff_mem rules.whitelist id
  unfold classify
  by_cases h1 : hasActiveSnooze rules id now = true
  · simp only [h1, if_true]
    rw [h1] at hs
    refine ⟨?_, ?_, ?_⟩
    · simp [hs.mp rfl]
    · simp [hs.mp rfl]
    · simp [hs.mp rfl]
  · have hs' : ¬ ActiveSnooze rules id now := fun h => h1 (hs.mpr h)
    simp only [Bool.not_eq_true] at h1
    simp only [h1, Bool.false_eq_true, if_false]
    by_cases h2 : rules.blacklist.contains id = true
    · simp only [h2, if_true]
      rw [h2] at hb
      refine ⟨?_, ?_, ?_⟩
      · simp [hs', hb.mp rfl]
      · simp [hb.mp rfl]
      · simp [hs', hb.mp rfl]
    · have hb' : id ∉ rules.blacklist := fun h => h2 (hb.mpr h)
      simp only [Bool.not_eq_true] at h2
      simp only [h2, Bool.false_eq_true, if_false]
      by_cases h3 : rules.whitelist.contains id = true
      · rw [h3] at hw
        simp only [h3, if_true]
        refine ⟨?_, ?_, ?_⟩
        · simp [hb']
        · simp [hs', hb', hw.mp rfl]
        · simp [hs', hb', hw.mp rfl]
      · have hw' : id ∉ rules.whitelist := fun h => h3 (hw.mpr h)
        simp only [Bool.not_eq_true] at h3
        simp only [h3, Bool.false_eq_true, if_false]
        refine ⟨?_, ?_, ?_⟩
        · simp [hb']
        · simp [hw']
        · simp [hb', hw']

/-! ## Daily-metric formatting (SynapseStatsGrid) -/

/-- Embeds `formatTime` from `SynapseStatsGrid` (src/unnamed/part_006):
`h = Math.floor(seconds/3600)`, `m = Math.floor((seconds%3600)/60)`,
rendered as the template string with the hour part guarded by `h > 0`. -/
def formatTime (seconds : Nat) : String :=
  let h := seconds / 3600
  let m := (seconds % 3600) / 60
  (if h > 0 then toString h ++ "h " else "") ++ toString m ++ "m"

/-- The format described by the claim: `floor(s/3600)` hours and
`floor((s mod 3600)/60)` minutes, hour part omitted exactly when
`floor(s/3600) = 0`. -/
def formatTimeClaim (seconds : Nat) : String :=
  if seconds / 3600 = 0 then
    toString ((seconds % 3600) / 60) ++ "m"
  else
    toString (seconds / 3600) ++ "h " ++ toString ((seconds % 3600) / 60) ++ "m"

/-- Claim C7: the Deep Work display formats a second count as
`floor(s/3600)` hours and `floor((s mod 3600)/60)` minutes, omitting the
hour part exactly when the hour count is zero. -/
theorem formatTime_eq_claim (seconds : Nat) :
    formatTime seconds = formatTimeClaim seconds := by
  unfold formatTime formatTimeClaim
  by_cases h : seconds / 3600 = 0
  · simp [h]
  · have : 0 < seconds / 3600 := Nat.pos_of_ne_zero h
    simp [h, this, String.append_assoc]

/-! ## Monitoring loop and block notifications -/

/-- Modelled from the spec: the per-tick state of the monitoring loop that is
relevant to block notifications — the rule store read every tick, the
previously observed process, and the process already notified for in the
current contiguous episode (Monitoring Loop, `main-logic/` is not among the
provided sources). -/
structure LoopState where
  rules : AppRuleSet
  lastFocus : Option String
  notifiedFor : Option String
deriving Repr, DecidableEq

/-- Modelled from the spec: one tick of the monitoring loop.  A focus change
re-arms the notification; a Distraction classification emits a block
notification only when the current episode has not been notified yet; any
other classification (including an acknowledgment that snoozes the process
and makes it Neutral) clears the notified flag (Monitoring Loop step 3,
`main-logic/` is not among the provided sources). -/
def tick (s : LoopState) (now : Nat) (focus : Option String) :
    LoopState × Option String :=
  match focus with
  | none => ({ s with lastFocus := none, notifiedFor := none }, none)
  | some id =>
    if classify id s.rules now = .Distraction then
      if s.lastFocus = some id ∧ s.notifiedFor = some id then
        ({ s with lastFocus := some id, notifiedFor := some id }, none)
      else
        ({ s with lastFocus := some id, notifiedFor := some id }, some id)
    else
      ({ s with lastFocus := some id, notifiedFor := none }, none)

/-- Run the loop over a list of tick times while the same process `id` holds
focus, collecting the emitted block notifications in order. -/
def runFocusTicks (s : LoopState) (id : String) : List Nat → LoopState × List String
  | [] => (s, [])
  | now :: rest =>
    ((runFocusTicks (tick s now (some id)).1 id rest).1,
      (match (tick s now (some id)).2 with | some n => [n] | none => []) ++
        (runFocusTicks (tick s now (some id)).1 id rest).2)

theorem tick_some_fields (s : LoopState) (now : Nat) (id : String) :
    (tick s now (some id)).1.rules = s.rules ∧
    (tick s now (some id)).1.lastFocus = some id := by
  simp only [tick]
  split_ifs <;> exact ⟨rfl, rfl⟩

theorem tick_distraction_notified (s : LoopState) (now : Nat) (id : String)
    (hcl : classify id s.rules now = .Distraction) :
    (tick s now (some id)).1.notifiedFor = some id := by
  simp only [tick]
  rw [if_pos hcl]
  split_ifs <;> rfl

theorem tick_armed_none (s : LoopState) (now : Nat) (id : String)
    (hlf : s.lastFocus = some id) (hnf : s.notifiedFor = some id) :
    (tick s now (some id)).2 = none := by
  simp only [tick]
  by_cases hcl : classify id s.rules now = .Distraction
  · rw [if_pos hcl, if_pos ⟨hlf, hnf⟩]
  · rw [if_neg hcl]

theorem tick_fresh_emits (s : LoopState) (now : Nat) (id : String)
    (hlf : s.lastFocus ≠ some id)
    (hcl : classify id s.rules now = .Distraction) :
    (tick s now (some id)).2 = some id := by
  simp only [tick]
  rw [if_pos hcl, if_neg (fun h => hlf h.1)]

theorem tick_not_distraction_none (s : LoopState) (now : Nat) (id : String)
    (hcl : classify id s.rules now ≠ .Distraction) :
    (tick s now (some id)).2 = none := by
  simp only [tick]
  rw [if_neg hcl]

theorem runFocusTicks_armed (id : String) (R : AppRuleSet) (ts : List Nat) :
    ∀ s : LoopState, s.rules = R → s.lastFocus = some id →
      s.notifiedFor = some id →
      (∀ t ∈ ts, classify id R t = .Distraction) →
      (runFocusTicks s id ts).2 = [] := by
  induction ts with
  | nil => intro s _ _ _ _; rfl
  | cons t ts ih =>
    intro s hr hlf hnf hall
    have hcl : classify id s.rules t = .Distraction := by
      rw [hr]; exact hall t (List.mem_cons_self t ts)
    have hnone := tick_armed_none s t id hlf hnf
    have hfields := tick_some_fields s t id
    have hnotif := tick_distraction_notified s t id hcl
    simp only [runFocusTicks, hnone, List.nil_append]
    exact ih (tick s t (some id)).1 (hfields.1.trans hr) hfields.2 hnotif
      (fun u hu => hall u (List.mem_cons_of_mem t hu))

/-- Claim C4: the block notification is emitted exactly once per contiguous
episode of the same distracting process holding focus.  First conjunct: a
fresh episode (focus just changed onto `id`) whose ticks all classify `id` as
Distraction emits exactly one notification over the whole episode.  Second
conjunct: a tick that emits is never followed by an emission on the
immediately next tick while the same process still holds focus. -/
theorem blockNotification_once_per_episode :
    (∀ (s : LoopState) (id : String) (t0 : Nat) (ts : List Nat),
      s.lastFocus ≠ some id →
      classify id s.rules t0 = .Distraction →
      (∀ t ∈ ts, classify id s.rules t = .Distraction) →
      (runFocusTicks s id (t0 :: ts)).2 = [id]) ∧
    (∀ (s : LoopState) (now now' : Nat) (id : String),
      (tick s now (some id)).2 = some id →
      (tick (tick s now (some id)).1 now' (some id)).2 = none) := by
  constructor
  · intro s id t0 ts hlf hcl hall
    have hemit := tick_fresh_emits s t0 id hlf hcl
    have hfields := tick_some_fields s t0 id
    have hnotif := tick_distraction_notified s t0 id hcl
    have hrest := runFocusTicks_armed id s.rules ts (tick s t0 (some id)).1
      hfields.1 hfields.2 hnotif hall
    simp only [runFocusTicks, hemit, hrest]
    rfl
  · intro s now now' id hemit
    by_cases hcl : classify id s.rules now = .Distraction
    · exact tick_armed_none _ now' id (tick_some_fields s now id).2
        (tick_distraction_notified s now id hcl)
    · exfalso
      rw [tick_not_distraction_none s now id hcl] at hemit
      simp at hemit

/-- Concrete episode mirroring spec Scenario A: blacklist `chrome.exe`, focus
moves from `code.exe` onto `chrome.exe` for three ticks — exactly one
notification is emitted, and the tick right after the emitting one emits
nothing. -/
theorem blockNotification_once_per_episode_witness :
    ((⟨⟨[], ["chrome.exe"], []⟩, some "code.exe", none⟩ : LoopState).lastFocus
        ≠ some "chrome.exe") ∧
    (runFocusTicks ⟨⟨[], ["chrome.exe"], []⟩, some "code.exe", none⟩
        "chrome.exe" [1, 2, 3]).2 = ["chrome.exe"] ∧
    (tick ⟨⟨[], ["chrome.exe"], []⟩, some "code.exe", none⟩ 1
        (some "chrome.exe")).2 = some "chrome.exe" ∧
    (tick (tick ⟨⟨[], ["chrome.exe"], []⟩, some "code.exe", none⟩ 1
        (some "chrome.exe")).1 2 (some "chrome.exe")).2 = none := by
  refine ⟨by decide, ?_, by decide, ?_⟩
  · exact blockNotification_once_per_episode.1
      ⟨⟨[], ["chrome.exe"], []⟩, some "code.exe", none⟩
      "chrome.exe" 1 [2, 3] (by decide) (by decide) (by decide)
  · exact blockNotification_once_per_episode.2
      ⟨⟨[], ["chrome.exe"], []⟩, some "code.exe", none⟩
      1 2 "chrome.exe" (by decide)

/-! ## Block-warning page handlers (BlockWarningPage, src/unnamed/part_007) -/

/-- A Tauri command invoked by the block-warning page. -/
inductive FrontendCmd where
  | killApp (appName : String)
  | snoozeApp (appName : String) (durationSecs : Nat)
deriving Repr, DecidableEq

/-- Observable outcome of running one of the page's button handlers: the
backend commands it invoked, whether the modal window was scheduled to
close, and whether an invoke rejection escaped the handler. -/
structure HandlerResult where
  invoked : List FrontendCmd
  windowClosed : Bool
  errorPropagated : Bool
deriving Repr, DecidableEq

/-- Embeds `handleClose` (src/unnamed/part_007, lines 49-62): when the app
name is known it invokes `kill_app_cmd` inside try/catch — a rejection is
logged and swallowed — and the window close timer runs in every case. -/
def handleClose (appName : Option String) (killOutcome : Except String Unit) :
    HandlerResult :=
  match appName with
  | some name =>
    match killOutcome with
    | .ok _ => ⟨[.killApp name], true, false⟩
    | .error _ => ⟨[.killApp name], true, false⟩
  | none => ⟨[], true, false⟩

/-- Embeds `handleUseFor5Mins` (src/unnamed/part_007, lines 64-78): when the
app name is known it invokes `snooze_app_cmd` with `durationSecs: 300`
inside try/catch, and the window close timer runs in every case. -/
def handleUseFor5Mins (appName : Option String)
    (snoozeOutcome : Except String Unit) : HandlerResult :=
  match appName with
  | some name =>
    match snoozeOutcome with
    | .ok _ => ⟨[.snoozeApp name 300], true, false⟩
    | .error _ => ⟨[.snoozeApp name 300], true, false⟩
  | none => ⟨[], true, false⟩

/-- Claim C5: with a known app name, `handleClose` invokes `kill_app_cmd`
with that identifier; a command error is caught locally, never propagates,
and never prevents the modal window from closing. -/
theorem handleClose_kills_and_swallows_errors (name : String)
    (killOutcome : Except String Unit) :
    (handleClose (some name) killOutcome).invoked = [FrontendCmd.killApp name] ∧
    (handleClose (some name) killOutcome).windowClosed = true ∧
    (handleClose (some name) killOutcome).errorPropagated = false := by
  cases killOutcome <;> exact ⟨rfl, rfl, rfl⟩

/-- Claim C2 (amended): with a known app name, `handleUseFor5Mins` invokes
`snooze_app_cmd` with that identifier and exactly 300 seconds; and after
`snooze(P, 300)` at `t0` the engine classifies `P` as Neutral — so the loop
emits no block notification for `P` — at every time `t` with
`t0 ≤ t < t0 + 300`.  (At `t = t0 + 300` exactly, the snooze expiry
`t0 + 300` no longer satisfies `expiry > now`, so suppression ends there;
the claim's right-closed interval `(t0, t0+300]` fails at that endpoint.) -/
theorem handleUseFor5Mins_snoozes (name : String)
    (snoozeOutcome : Except String Unit) (rules : AppRuleSet)
    (t0 t : Nat) (lf nf : Option String)
    (_h1 : t0 ≤ t) (h2 : t < t0 + 300) :
    (handleUseFor5Mins (some name) snoozeOutcome).invoked
        = [FrontendCmd.snoozeApp name 300] ∧
    classify name (snooze rules name 300 t0) t = .Neutral ∧
    (tick ⟨snooze rules name 300 t0, lf, nf⟩ t (some name)).2 = none := by
  have hsn : hasActiveSnooze (snooze rules name 300 t0) name t = true := by
    simp [hasActiveSnooze, snooze, List.any_cons, h2]
  have hcl : classify name (snooze rules name 300 t0) t = .Neutral := by
    simp [classify, hsn]
  refine ⟨?_, hcl, ?_⟩
  · cases snoozeOutcome <;> rfl
  · exact tick_not_distraction_none _ t name (by rw [hcl]; exact fun h => by cases h)

/-- Instantiation of the amended snooze claim: snoozing `chrome.exe` for 300
seconds at `t0 = 0` suppresses the block notification at `t = 299`. -/
theorem handleUseFor5Mins_snoozes_witness :
    (0 : Nat) ≤ 299 ∧ (299 : Nat) < 0 + 300 ∧
    ((handleUseFor5Mins (some "chrome.exe") (Except.ok ())).invoked
        = [FrontendCmd.snoozeApp "chrome.exe" 300] ∧
      classify "chrome.exe" (snooze ⟨[], ["chrome.exe"], []⟩ "chrome.exe" 300 0) 299
        = .Neutral ∧
      (tick ⟨snooze ⟨[], ["chrome.exe"], []⟩ "chrome.exe" 300 0, none, none⟩ 299
        (some "chrome.exe")).2 = none) :=
  ⟨by decide, by decide,
    handleUseFor5Mins_snoozes "chrome.exe" (Except.ok ())
      ⟨[], ["chrome.exe"], []⟩ 0 299 none none (by decide) (by decide)⟩

/-- Counterexample to claim C2 as stated: with `chrome.exe` blacklisted and
snoozed for 300 seconds at `t0 = 0`, the time `t = 300` lies in the claimed
suppression interval `(t0, t0 + 300]`, yet the engine classifies the process
as Distraction there and a tick emits a block notification for it. -/
theorem snooze_boundary_counterexample :
    (0 : Nat) < 300 ∧ (300 : Nat) ≤ 0 + 300 ∧
    classify "chrome.exe" (snooze ⟨[], ["chrome.exe"], []⟩ "chrome.exe" 300 0) 300
      = .Distraction ∧
    (tick ⟨snooze ⟨[], ["chrome.exe"], []⟩ "chrome.exe" 300 0, none, none⟩ 300
      (some "chrome.exe")).2 = some "chrome.exe" := by
  refine ⟨by decide, by decide, by decide, by decide⟩

/-! ## Monitoring toggle (SynapseHero, src/ui/src/pages/SynapseHero.jsx) -/

/-- The display state of the hero section: the rendered monitoring flag and
the loading spinner flag. -/
structure HeroState where
  isMonitoring : Bool
  isLoading : Bool
deriving Repr, DecidableEq

/-- A monitoring command sent to the backend. -/
inductive MonitorCmd where
  | startMonitoringCmd
  | stopMonitoringCmd
deriving Repr, DecidableEq

/-- Embeds `startMonitoring` (SynapseHero.jsx, lines 86-97): on success the
displayed flag becomes true; on rejection the catch block only logs, and the
`finally` clears the loading flag either way. -/
def startMonitoring (s : HeroState) (outcome : Except String Unit) : HeroState :=
  match outcome with
  | .ok _ => { s with isMonitoring := true, isLoading := false }
  | .error _ => { s with isLoading := false }

/-- Embeds `stopMonitoring` (SynapseHero.jsx, lines 99-110): on success the
displayed flag becomes false; on rejection the catch block only logs, and the
`finally` clears the loading flag either way. -/
def stopMonitoring (s : HeroState) (outcome : Except String Unit) : HeroState :=
  match outcome with
  | .ok _ => { s with isMonitoring := false, isLoading := false }
  | .error _ => { s with isLoading := false }

/-- Embeds `handleToggle` (SynapseHero.jsx, lines 112-118): dispatches on the
displayed monitoring flag, returning the command invoked and the display
state after the command settles with the given outcome. -/
def handleToggle (s : HeroState) (outcome : Except String Unit) :
    MonitorCmd × HeroState :=
  if s.isMonitoring then (.stopMonitoringCmd, stopMonitoring s outcome)
  else (.startMonitoringCmd, startMonitoring s outcome)

/-- Claim C6: the toggle invokes stop when the displayed monitoring state is
true and start when it is false; a successful command flips the displayed
state, and a rejected command leaves it unchanged. -/
theorem handleToggle_flips_on_success (s : HeroState)
    (outcome : Except String Unit) :
    ((handleToggle s outcome).1
        = if s.isMonitoring then .stopMonitoringCmd else .startMonitoringCmd) ∧
    (∀ u, outcome = .ok u →
      (handleToggle s outcome).2.isMonitoring = !s.isMonitoring) ∧
    (∀ e, outcome = .error e →
      (handleToggle s outcome).2.isMonitoring = s.isMonitoring) := by
  refine ⟨?_, ?_, ?_⟩
  · by_cases h : s.isMonitoring = true
    · simp [handleToggle, h]
    · simp only [Bool.not_eq_true] at h
      simp [handleToggle, h]
  · rintro u rfl
    by_cases h : s.isMonitoring = true
    · simp [handleToggle, stopMonitoring, h]
    · simp only [Bool.not_eq_true] at h
      simp [handleToggle, startMonitoring, h]
  · rintro e rfl
    by_cases h : s.isMonitoring = true
    · simp [handleToggle, stopMonitoring, h]
    · simp only [Bool.not_eq_true] at h
      simp [handleToggle, startMonitoring, h]

/-- Instantiation of the toggle claim: from a monitoring display, a
successful toggle invokes stop and flips the display off. -/
theorem handleToggle_flips_on_success_witness :
    ((handleToggle ⟨true, false⟩ (Except.ok ())).1 =
        if (⟨true, false⟩ : HeroState).isMonitoring then .stopMonitoringCmd
        else .startMonitoringCmd) ∧
    (handleToggle ⟨true, false⟩ (Except.ok ())).2.isMonitoring
        = !(⟨true, false⟩ : HeroState).isMonitoring :=
  ⟨(handleToggle_flips_on_success ⟨true, false⟩ (Except.ok ())).1,
    (handleToggle_flips_on_success ⟨true, false⟩ (Except.ok ())).2.1 () rfl⟩

/-! ## Daily-metric fetches (SynapseStatsGrid and SynapseFocusSessions) -/

/-- Embeds the `total_focus_time_today_cmd` fetch (src/unnamed/part_006,
lines 9-14): the resolved value is displayed, a rejection sets 0. -/
def fetchFocusTime (result : Except String Nat) : Nat :=
  match result with
  | .ok v => v
  | .error _ => 0

/-- Embeds the `total_distractions_today_cmd` fetch (src/unnamed/part_006,
lines 15-17): the resolved value is displayed, a rejection sets 0. -/
def fetchDistractions (result : Except String Nat) : Nat :=
  match result with
  | .ok v => v
  | .error _ => 0

/-- Embeds `fetchSessions` for `total_focus_sessions_today_cmd`
(src/ui/src/hooks/useFocusNotification.js, SynapseFocusSessions section):
the resolved value is displayed, a rejection sets 0. -/
def fetchSessions (result : Except String Nat) : Nat :=
  match result with
  | .ok v => v
  | .error _ => 0

/-- Claim C9: each of the three daily-metric fetches maps a rejection to the
displayed value 0 (and a resolved value is displayed as-is, so no stale value
survives a rejection). -/
theorem metricFetches_zero_on_rejection (e : String) (v : Nat) :
    fetchFocusTime (.error e) = 0 ∧ fetchDistractions (.error e) = 0 ∧
    fetchSessions (.error e) = 0 ∧
    fetchFocusTime (.ok v) = v ∧ fetchDistractions (.ok v) = v ∧
    fetchSessions (.ok v) = v :=
  ⟨rfl, rfl, rfl, rfl, rfl, rfl⟩

/-! ## Block-warning window registry (useAppBlockModal.ts) -/

/-- A webview window labelled `block-warning-modal`, with the attributes
`showModal` manipulates. -/
structure ModalWindow where
  width : Nat
  height : Nat
  visible : Bool
  focused : Bool
deriving Repr, DecidableEq

/-- The window constructed by `new WebviewWindow` in `showModal`
(useAppBlockModal.ts, lines 31-45): 360×420, created hidden, focused. -/
def newBlockModalWindow : ModalWindow := ⟨360, 420, false, true⟩

/-- Embeds `showModal` (useAppBlockModal.ts, lines 12-54) acting on the list
of windows carrying the `block-warning-modal` label: an existing window is
resized to 360×420, shown and focused; only when none exists is a new window
constructed. -/
def showModal : List ModalWindow → List ModalWindow
  | [] => [newBlockModalWindow]
  | w :: rest =>
    ({ w with width := 360, height := 420, visible := true, focused := true }) :: rest

/-- `showModal` applied `n` times, as by repeated `app-blocked` events
(useAppBlockModal.ts, lines 64-73). -/
def showModalIter : Nat → List ModalWindow → List ModalWindow
  | 0, ws => ws
  | n + 1, ws => showModalIter n (showModal ws)

/-- Claim C10: at most one block-warning window ever exists.  `showModal`
never increases a window count that is already positive, preserves the
at-most-one invariant, any number of repeated `app-blocked` events starting
from no window leaves exactly one window, and an existing window is resized
to 360×420 and re-shown rather than replaced by a second one. -/
theorem showModal_at_most_one_window :
    (∀ ws : List ModalWindow, ws ≠ [] → (showModal ws).length = ws.length) ∧
    (∀ ws : List ModalWindow, ws.length ≤ 1 → (showModal ws).length ≤ 1) ∧
    (∀ n : Nat, (showModalIter n []).length ≤ 1) ∧
    (∀ (w : ModalWindow) (rest : List ModalWindow),
      (showModal (w :: rest)).head?.map (fun x => (x.width, x.height, x.visible))
        = some (360, 420, true)) := by
  have hlen : ∀ ws : List ModalWindow, ws ≠ [] → (showModal ws).length = ws.length := by
    intro ws hws
    cases ws with
    | nil => exact absurd rfl hws
    | cons w rest => rfl
  have hpres : ∀ ws : List ModalWindow, ws.length ≤ 1 → (showModal ws).length ≤ 1 := by
    intro ws hws
    cases ws with
    | nil => exact Nat.le_refl 1
    | cons w rest => rw [hlen (w :: rest) (by simp)]; exact hws
  refine ⟨hlen, hpres, ?_, ?_⟩
  · intro n
    have : ∀ (n : Nat) (ws : List ModalWindow), ws.length ≤ 1 →
        (showModalIter n ws).length ≤ 1 := by
      intro n
      induction n with
      | zero => intro ws h; exact h
      | succ m ih => intro ws h; exact ih (showModal ws) (hpres ws h)
    exact this n [] (by simp)
  · intro w rest
    rfl

/-- Instantiation of the window-registry claim: five consecutive
`app-blocked` events starting from no window leave exactly one window. -/
theorem showModal_at_most_one_window_witness :
    ([] : List ModalWindow) ≠ [newBlockModalWindow] ∧
    (showModalIter 5 []).length ≤ 1 ∧
    (showModal [newBlockModalWindow]).length = 1 :=
  ⟨by decide, showModal_at_most_one_window.2.2.1 5,
    showModal_at_most_one_window.1 [newBlockModalWindow] (by decide)⟩

/-! ## Rule-editing component (SynapseActions.jsx) -/

/-- One entry of the component's app lists: the `[name, exe, checked]`
triple used throughout SynapseActions.jsx. -/
structure AppEntry where
  displayName : String
  exe : String
  checked : Bool
deriving Repr, DecidableEq

/-- The component state of `SynapseActions`: the two dropdown flags and the
three app lists (SynapseActions.jsx, lines 120-130). -/
structure ActionsState where
  showFocusDropdown : Bool
  showDistractionDropdown : Bool
  allApps : List AppEntry
  focusApps : List AppEntry
  distractionApps : List AppEntry
deriving Repr, DecidableEq

/-- The state on mount: both dropdown flags false, all lists empty
(`useState(false)` / `useState([])`, SynapseActions.jsx, lines 120-130). -/
def initialActionsState : ActionsState := ⟨false, false, [], [], []⟩

/-- The duplicate-`exe` filter in `fetchInstalledApps`
(SynapseActions.jsx, lines 163-169): keeps the first pair carrying each
identifier, tracking the identifiers already seen. -/
def dedupByExe (seen : List String) :
    List (String × String) → List (String × String)
  | [] => []
  | (n, e) :: rest =>
    if seen.contains e then dedupByExe seen rest
    else (n, e) :: dedupByExe (e :: seen) rest

/-- Embeds `fetchInstalledApps` (SynapseActions.jsx, lines 158-181): the
backend pairs are de-duplicated by `exe`, turned into unchecked entries, and
split by `slice(0, length / 2)` / `slice(length / 2)` (JavaScript `slice`
truncates the fractional index, matching `Nat` division). -/
def fetchInstalledApps (s : ActionsState)
    (appData : List (String × String)) : ActionsState :=
  let apps := (dedupByExe [] appData).map fun p => AppEntry.mk p.1 p.2 false
  { s with allApps := apps,
           focusApps := apps.take (apps.length / 2),
           distractionApps := apps.drop (apps.length / 2) }

/-- Embeds `toggleFocusApp` (SynapseActions.jsx, lines 195-201): flips the
checked flag of the matching entries, leaving name and identifier intact. -/
def toggleFocusApp (s : ActionsState) (exe : String) : ActionsState :=
  { s with focusApps := s.focusApps.map fun app =>
      if app.exe = exe then { app with checked := !app.checked } else app }

/-- Embeds `toggleDistractionApp` (SynapseActions.jsx, lines 203-209). -/
def toggleDistractionApp (s : ActionsState) (exe : String) : ActionsState :=
  { s with distractionApps := s.distractionApps.map fun app =>
      if app.exe = exe then { app with checked := !app.checked } else app }

/-- First-occurrence de-duplication, as `[...new Set(xs)]` in
`updateAppRules` (SynapseActions.jsx, lines 213-214). -/
def jsSetDedup (seen : List String) : List String → List String
  | [] => []
  | x :: rest =>
    if seen.contains x then jsSetDedup seen rest
    else x :: jsSetDedup (x :: seen) rest

/-- The whitelist computed by `updateAppRules` (SynapseActions.jsx,
line 213): checked focus entries, mapped to identifiers, de-duplicated. -/
def updateWhitelist (s : ActionsState) : List String :=
  jsSetDedup [] ((s.focusApps.filter fun a => a.checked).map fun a => a.exe)

/-- The blacklist computed by `updateAppRules` (SynapseActions.jsx,
line 214): checked distraction entries, mapped to identifiers,
de-duplicated. -/
def updateBlacklist (s : ActionsState) : List String :=
  jsSetDedup []
    ((s.distractionApps.filter fun a => a.checked).map fun a => a.exe)

/-- User interactions the component exposes after the fetch: toggling an app
in either dropdown and opening or closing either dropdown. -/
inductive UserAction where
  | toggleFocus (exe : String)
  | toggleDistraction (exe : String)
  | setFocusDropdown (b : Bool)
  | setDistractionDropdown (b : Bool)
deriving Repr, DecidableEq

def applyAction (s : ActionsState) : UserAction → ActionsState
  | .toggleFocus e => toggleFocusApp s e
  | .toggleDistraction e => toggleDistractionApp s e
  | .setFocusDropdown b => { s with showFocusDropdown := b }
  | .setDistractionDropdown b => { s with showDistractionDropdown := b }

def runActions (s : ActionsState) : List UserAction → ActionsState
  | [] => s
  | a :: rest => runActions (applyAction s a) rest

/-- Embeds the effect watching the two dropdown flags (SynapseActions.jsx,
lines 228-232): whenever both flags are false it calls `updateAppRules`,
which invokes `update_app_rules_cmd` with the computed lists. -/
def rulesUpdateEffect (s : ActionsState) : Option (List String × List String) :=
  if !s.showFocusDropdown && !s.showDistractionDropdown then
    some (updateWhitelist s, updateBlacklist s)
  else none

theorem jsSetDedup_not_mem_seen (l : List String) :
    ∀ (seen : List String) (x : String), x ∈ jsSetDedup seen l → x ∉ seen := by
  induction l with
  | nil => intro seen x hx; simp [jsSetDedup] at hx
  | cons a l ih =>
    intro seen x hx
    by_cases h : seen.contains a = true
    · simp only [jsSetDedup] at hx
      rw [if_pos h] at hx
      exact ih seen x hx
    · simp only [jsSetDedup] at hx
      rw [if_neg h] at hx
      rcases List.mem_cons.mp hx with rfl | hx'
      · exact fun hxs => h ((contains_iff_mem seen x).mpr hxs)
      · exact fun hxs => ih (a :: seen) x hx' (List.mem_cons_of_mem a hxs)

theorem jsSetDedup_nodup (l : List String) :
    ∀ seen : List String, (jsSetDedup seen l).Nodup := by
  induction l with
  | nil => intro seen; simp [jsSetDedup]
  | cons a l ih =>
    intro seen
    by_cases h : seen.contains a = true
    · simp only [jsSetDedup]
      rw [if_pos h]
      exact ih seen
    · simp only [jsSetDedup]
      rw [if_neg h]
      refine List.nodup_cons.mpr ⟨?_, ih (a :: seen)⟩
      intro hmem
      exact jsSetDedup_not_mem_seen l (a :: seen) a hmem (List.mem_cons_self a seen)

theorem jsSetDedup_subset (l : List String) :
    ∀ (seen : List String) (x : String), x ∈ jsSetDedup seen l → x ∈ l := by
  induction l with
  | nil => intro seen x hx; simp [jsSetDedup] at hx
  | cons a l ih =>
    intro seen x hx
    by_cases h : seen.contains a = true
    · simp only [jsSetDedup] at hx
      rw [if_pos h] at hx
      exact List.mem_cons_of_mem a (ih seen x hx)
    · simp only [jsSetDedup] at hx
      rw [if_neg h] at hx
      rcases List.mem_cons.mp hx with rfl | hx'
      · exact List.mem_cons_self x l
      · exact List.mem_cons_of_mem a (ih (a :: seen) x hx')

theorem dedupByExe_map_snd (l : List (String × String)) :
    ∀ seen : List String,
      (dedupByExe seen l).map Prod.snd = jsSetDedup seen (l.map Prod.snd) := by
  induction l with
  | nil => intro seen; rfl
  | cons p l ih =>
    intro seen
    obtain ⟨n, e⟩ := p
    by_cases h : seen.contains e = true
    · simp only [dedupByExe, List.map_cons, jsSetDedup]
      rw [if_pos h, if_pos h]
      exact ih seen
    · simp only [dedupByExe, List.map_cons, jsSetDedup]
      rw [if_neg h, if_neg h]
      simp only [List.map_cons]
      rw [ih (e :: seen)]

theorem toggle_map_exe (l : List AppEntry) (e : String) :
    ((l.map fun app =>
        if app.exe = e then { app with checked := !app.checked } else app).map
      fun a => a.exe) = l.map fun a => a.exe := by
  induction l with
  | nil => rfl
  | cons a l ih =>
    simp only [List.map_cons, ih]
    by_cases h : a.exe = e
    · rw [if_pos h]
    · rw [if_neg h]

theorem applyAction_preserves_exes (s : ActionsState) (a : UserAction) :
    ((applyAction s a).focusApps.map fun x => x.exe)
        = (s.focusApps.map fun x => x.exe) ∧
    ((applyAction s a).distractionApps.map fun x => x.exe)
        = (s.distractionApps.map fun x => x.exe) := by
  cases a with
  | toggleFocus e => exact ⟨toggle_map_exe s.focusApps e, rfl⟩
  | toggleDistraction e => exact ⟨rfl, toggle_map_exe s.distractionApps e⟩
  | setFocusDropdown b => exact ⟨rfl, rfl⟩
  | setDistractionDropdown b => exact ⟨rfl, rfl⟩

theorem runActions_preserves_exes (acts : List UserAction) :
    ∀ s : ActionsState,
    ((runActions s acts).focusApps.map fun x => x.exe)
        = (s.focusApps.map fun x => x.exe) ∧
    ((runActions s acts).distractionApps.map fun x => x.exe)
        = (s.distractionApps.map fun x => x.exe) := by
  induction acts with
  | nil => intro s; exact ⟨rfl, rfl⟩
  | cons a acts ih =>
    intro s
    have h1 := applyAction_preserves_exes s a
    have h2 := ih (applyAction s a)
    exact ⟨h2.1.trans h1.1, h2.2.trans h1.2⟩

theorem fetchInstalledApps_exes_disjoint (s : ActionsState)
    (appData : List (String × String)) :
    List.Disjoint
      ((fetchInstalledApps s appData).focusApps.map fun a => a.exe)
      ((fetchInstalledApps s appData).distractionApps.map fun a => a.exe) := by
  unfold fetchInstalledApps
  simp only [List.map_take, List.map_drop, List.map_map]
  have hcomp : ((fun a : AppEntry => a.exe) ∘ fun p : String × String =>
      AppEntry.mk p.1 p.2 false) = Prod.snd := rfl
  rw [hcomp, dedupByExe_map_snd appData []]
  exact List.disjoint_take_drop (jsSetDedup_nodup (appData.map Prod.snd) [])
    (Nat.le_refl _)

theorem updateWhitelist_sub_exes (s : ActionsState) (x : String) :
    x ∈ updateWhitelist s → x ∈ s.focusApps.map fun a => a.exe := by
  intro hx
  have hx2 := jsSetDedup_subset _ [] x hx
  rcases List.mem_map.mp hx2 with ⟨a, ha, rfl⟩
  exact List.mem_map_of_mem _ (List.mem_of_mem_filter ha)

theorem updateBlacklist_sub_exes (s : ActionsState) (x : String) :
    x ∈ updateBlacklist s → x ∈ s.distractionApps.map fun a => a.exe := by
  intro hx
  have hx2 := jsSetDedup_subset _ [] x hx
  rcases List.mem_map.mp hx2 with ⟨a, ha, rfl⟩
  exact List.mem_map_of_mem _ (List.mem_of_mem_filter ha)

/-- Claim C3: starting from any list of `(display_name, identifier)` pairs
delivered by `get_installed_apps_cmd` and any sequence of user interactions,
the whitelist and blacklist handed to `update_app_rules_cmd` are each
duplicate-free and mutually disjoint. -/
theorem updateAppRules_nodup_disjoint (appData : List (String × String))
    (acts : List UserAction) :
    (updateWhitelist (runActions (fetchInstalledApps initialActionsState appData) acts)).Nodup ∧
    (updateBlacklist (runActions (fetchInstalledApps initialActionsState appData) acts)).Nodup ∧
    List.Disjoint
      (updateWhitelist (runActions (fetchInstalledApps initialActionsState appData) acts))
      (updateBlacklist (runActions (fetchInstalledApps initialActionsState appData) acts)) := by
  refine ⟨jsSetDedup_nodup _ [], jsSetDedup_nodup _ [], ?_⟩
  intro x hw hb
  have hfx := updateWhitelist_sub_exes _ x hw
  have hbx := updateBlacklist_sub_exes _ x hb
  have hex := runActions_preserves_exes acts (fetchInstalledApps initialActionsState appData)
  rw [hex.1] at hfx
  rw [hex.2] at hbx
  exact fetchInstalledApps_exes_disjoint initialActionsState appData hfx hbx

/-- Claim C8: on mount — before `get_installed_apps_cmd` resolves — both
dropdown flags are false and both app lists are empty, so the effect
watching the flags fires and invokes `update_app_rules_cmd` with empty
whitelist and blacklist, replacing the stored rules without user action. -/
theorem mountEffect_sends_empty_rules :
    rulesUpdateEffect initialActionsState = some ([], []) := rfl

end Synapse
